import Mathlib

/-!
Verification of the schedule-aware refresh decision engine and its paired
on-disk cache store (`src/data/cache/scheduler.py`, `src/data/cache/manager.py`,
`src/data/models/cache.py`).

Shallow embedding conventions:
- Python `datetime.date` is modelled by a `Date` structure (year, month, day)
  over `Nat`, with the proleptic-Gregorian ordinal (`toOrdinal`, matching
  Python's `date.toordinal`) used only to compute `weekday`
  (Monday = 0 .. Sunday = 6, as in Python).
- Python `datetime.datetime` is modelled by `DateTime`: a `Date` plus a
  time-of-day in minutes since midnight.  All timestamps in the source are
  consistently in the Europe/London zone, so the zone is dropped.
- The `holidays.UK()` calendar is an external library object; the scheduler
  only tests membership in it, so it is modelled as a finite `List Date`
  (and, for the general business-day loop, as an arbitrary `Date → Bool`).
- The unbounded `while` loop of `_next_business_day` is embedded with fuel
  (`nbAux`); the scheduler instance supplies a fuel bound that is proved
  sufficient for any finite holiday list.
- `pandas.DataFrame` is modelled by its observable surface used in
  `manager.py`: named columns carrying date values, plus a row count.
- The filesystem is modelled per dataset-name as a pair of file contents
  (`missing` / `corrupt` / `good v`); write failures are injected through
  explicit boolean fault flags, mirroring where `to_parquet` / `write_text`
  can raise.
- `datetime.now(...)` reads are modelled by an explicit environment `Env`
  carrying the clock value, so that dependence on the ambient clock is
  visible in each function's definition.
-/

/-- Calendar date (proleptic Gregorian), mirroring Python `datetime.date`. -/
structure Date where
  year : Nat
  month : Nat
  day : Nat
deriving DecidableEq

/-- Gregorian leap-year test (as in Python's `calendar.isleap`). -/
def isLeap (y : Nat) : Bool :=
  (y % 4 == 0 && y % 100 != 0) || y % 400 == 0

/-- Length of month `m` of year `y` (second component of `calendar.monthrange`). -/
def monthLength (y m : Nat) : Nat :=
  if m = 2 then (if isLeap y then 29 else 28)
  else if m = 4 ∨ m = 6 ∨ m = 9 ∨ m = 11 then 30
  else 31

/-- Sum of the lengths of months `1..m` of year `y`. -/
def cumMonthDays (y : Nat) : Nat → Nat
  | 0 => 0
  | m + 1 => cumMonthDays y m + monthLength y (m + 1)

/-- Days in all years before year `y` (proleptic Gregorian). -/
def daysBeforeYear (y : Nat) : Nat :=
  365 * (y - 1) + (y - 1) / 4 + (y - 1) / 400 - (y - 1) / 100

/-- Python's `date.toordinal`: day 1 is 0001-01-01. -/
def toOrdinal (d : Date) : Nat :=
  daysBeforeYear d.year + cumMonthDays d.year (d.month - 1) + d.day

/-- Python's `date.weekday`: Monday = 0 .. Sunday = 6. -/
def weekday (d : Date) : Nat :=
  (toOrdinal d + 6) % 7

/-- `d + timedelta(days=1)` on dates. -/
def succDate (d : Date) : Date :=
  if d.day < monthLength d.year d.month then ⟨d.year, d.month, d.day + 1⟩
  else if d.month < 12 then ⟨d.year, d.month + 1, 1⟩
  else ⟨d.year + 1, 1, 1⟩

/-- A structurally well-formed calendar date. -/
def Date.Valid (d : Date) : Prop :=
  1 ≤ d.year ∧ 1 ≤ d.month ∧ d.month ≤ 12 ∧ 1 ≤ d.day ∧ d.day ≤ monthLength d.year d.month

instance (d : Date) : Decidable d.Valid := by
  unfold Date.Valid; infer_instance

/-- Lexicographic order on dates, as Python compares `date` values. -/
def dateLt (a b : Date) : Prop :=
  a.year < b.year ∨ (a.year = b.year ∧
    (a.month < b.month ∨ (a.month = b.month ∧ a.day < b.day)))

instance (a b : Date) : Decidable (dateLt a b) := by
  unfold dateLt; infer_instance

/-- Timestamp: date plus time-of-day in minutes since midnight. -/
structure DateTime where
  date : Date
  time : Nat
deriving DecidableEq

/-- Python `datetime` strict order (date-major, then time-of-day). -/
def dtLt (a b : DateTime) : Prop :=
  dateLt a.date b.date ∨ (a.date = b.date ∧ a.time < b.time)

/-- Python `datetime` non-strict order. -/
def dtLe (a b : DateTime) : Prop :=
  dateLt a.date b.date ∨ (a.date = b.date ∧ a.time ≤ b.time)

instance (a b : DateTime) : Decidable (dtLt a b) := by
  unfold dtLt; infer_instance

instance (a b : DateTime) : Decidable (dtLe a b) := by
  unfold dtLe; infer_instance

-- Basic calendar lemmas --------------------------------------------------

theorem monthLength_ge_28 (y m : Nat) : 28 ≤ monthLength y m := by
  unfold monthLength
  split_ifs <;> omega

theorem succDate_valid {d : Date} (h : d.Valid) : (succDate d).Valid := by
  obtain ⟨hy, hm1, hm2, hd1, hd2⟩ := h
  have g1 := monthLength_ge_28 d.year (d.month + 1)
  have g2 := monthLength_ge_28 (d.year + 1) 1
  unfold succDate
  split_ifs with h1 h2 <;> refine ⟨?_, ?_, ?_, ?_, ?_⟩ <;> dsimp only <;> omega

theorem cumMonthDays_twelve (y : Nat) :
    cumMonthDays y 12 = 337 + monthLength y 2 := by
  have h : cumMonthDays y 12 =
      0 + monthLength y 1 + monthLength y 2 + monthLength y 3 + monthLength y 4 +
      monthLength y 5 + monthLength y 6 + monthLength y 7 + monthLength y 8 +
      monthLength y 9 + monthLength y 10 + monthLength y 11 + monthLength y 12 := rfl
  have h1 : monthLength y 1 = 31 := rfl
  have h3 : monthLength y 3 = 31 := rfl
  have h4 : monthLength y 4 = 30 := rfl
  have h5 : monthLength y 5 = 31 := rfl
  have h6 : monthLength y 6 = 30 := rfl
  have h7 : monthLength y 7 = 31 := rfl
  have h8 : monthLength y 8 = 31 := rfl
  have h9 : monthLength y 9 = 30 := rfl
  have h10 : monthLength y 10 = 31 := rfl
  have h11 : monthLength y 11 = 30 := rfl
  have h12 : monthLength y 12 = 31 := rfl
  omega

theorem daysBeforeYear_add_eq (y : Nat) :
    daysBeforeYear y + (y - 1) / 100 =
      365 * (y - 1) + (y - 1) / 4 + (y - 1) / 400 := by
  have hle : (y - 1) / 100 ≤ 365 * (y - 1) + (y - 1) / 4 + (y - 1) / 400 := by
    have h := Nat.div_le_self (y - 1) 100
    omega
  unfold daysBeforeYear
  exact Nat.sub_add_cancel hle

theorem daysBeforeYear_succ (y : Nat) (hy : 1 ≤ y) :
    daysBeforeYear (y + 1) = daysBeforeYear y + (if isLeap y then 366 else 365) := by
  obtain ⟨n, rfl⟩ : ∃ n, y = n + 1 := ⟨y - 1, by omega⟩
  have hleap : isLeap (n + 1) = true ↔
      ((n + 1) % 4 = 0 ∧ (n + 1) % 100 ≠ 0) ∨ (n + 1) % 400 = 0 := by
    simp [isLeap]
  have h1 := daysBeforeYear_add_eq (n + 1 + 1)
  have h2 := daysBeforeYear_add_eq (n + 1)
  simp only [Nat.add_sub_cancel] at h1 h2
  by_cases hl : isLeap (n + 1) = true
  · rw [if_pos hl]
    rcases hleap.mp hl with ⟨h4, h100⟩ | h400
    · have hdiv : 365 * (n + 1) + (n + 1) / 4 + (n + 1) / 400 + n / 100 =
          365 * n + n / 4 + n / 400 + (n + 1) / 100 + 366 := by omega
      omega
    · have hdiv : 365 * (n + 1) + (n + 1) / 4 + (n + 1) / 400 + n / 100 =
          365 * n + n / 4 + n / 400 + (n + 1) / 100 + 366 := by omega
      omega
  · have hc : ¬(((n + 1) % 4 = 0 ∧ (n + 1) % 100 ≠ 0) ∨ (n + 1) % 400 = 0) :=
      fun hx => hl (hleap.mpr hx)
    have h400 : (n + 1) % 400 ≠ 0 := fun hx => hc (Or.inr hx)
    rw [if_neg hl]
    by_cases h4 : (n + 1) % 4 = 0
    · by_cases h100 : (n + 1) % 100 = 0
      · have hdiv : 365 * (n + 1) + (n + 1) / 4 + (n + 1) / 400 + n / 100 =
            365 * n + n / 4 + n / 400 + (n + 1) / 100 + 365 := by omega
        omega
      · exact absurd (Or.inl ⟨h4, h100⟩) hc
    · have hdiv : 365 * (n + 1) + (n + 1) / 4 + (n + 1) / 400 + n / 100 =
          365 * n + n / 4 + n / 400 + (n + 1) / 100 + 365 := by omega
      omega

theorem toOrdinal_succDate {d : Date} (h : d.Valid) :
    toOrdinal (succDate d) = toOrdinal d + 1 := by
  obtain ⟨hy, hm1, hm2, hd1, hd2⟩ := h
  unfold succDate
  split_ifs with h1 h2
  · simp only [toOrdinal]
    omega
  · -- month rollover inside the year
    have hday : d.day = monthLength d.year d.month := by omega
    obtain ⟨m, hm⟩ : ∃ m, d.month = m + 1 := ⟨d.month - 1, by omega⟩
    rw [hm] at hday
    simp only [toOrdinal, hm, Nat.add_sub_cancel]
    have hc : cumMonthDays d.year (m + 1) =
        cumMonthDays d.year m + monthLength d.year (m + 1) := rfl
    omega
  · -- year rollover: month = 12, day = 31
    have hm12 : d.month = 12 := by omega
    rw [hm12] at hd2 h1
    have hlen : monthLength d.year 12 = 31 := rfl
    have hday : d.day = 31 := by omega
    have e1 : (12 : Nat) - 1 = 11 := rfl
    have e0 : (1 : Nat) - 1 = 0 := rfl
    simp only [toOrdinal, hm12, hday, e1, e0]
    have hc : cumMonthDays d.year 12 = cumMonthDays d.year 11 + monthLength d.year 12 := rfl
    have h12 := cumMonthDays_twelve d.year
    have hdby := daysBeforeYear_succ d.year hy
    have hcum0 : cumMonthDays (d.year + 1) 0 = 0 := rfl
    by_cases hl : isLeap d.year = true
    · have hfeb : monthLength d.year 2 = 29 := by
        show (if (2 : Nat) = 2 then (if isLeap d.year then 29 else 28) else _) = 29
        rw [if_pos rfl, if_pos hl]
      rw [if_pos hl] at hdby
      omega
    · have hfeb : monthLength d.year 2 = 28 := by
        show (if (2 : Nat) = 2 then (if isLeap d.year then 29 else 28) else _) = 28
        rw [if_pos rfl, if_neg hl]
      rw [if_neg hl] at hdby
      omega

theorem toOrdinal_pos {d : Date} (h : d.Valid) : 1 ≤ toOrdinal d := by
  obtain ⟨-, -, -, hd1, -⟩ := h
  unfold toOrdinal
  omega

theorem succDate_iter_spec {d : Date} (h : d.Valid) (k : Nat) :
    (succDate^[k] d).Valid ∧ toOrdinal (succDate^[k] d) = toOrdinal d + k := by
  induction k generalizing d with
  | zero => exact ⟨h, rfl⟩
  | succ n ih =>
    rw [Function.iterate_succ_apply]
    obtain ⟨hv, ho⟩ := ih (succDate_valid h)
    exact ⟨hv, by rw [ho, toOrdinal_succDate h]; omega⟩

-- Business-day search (`RefreshScheduler._next_business_day`) ------------

/-- Membership test in the scheduler's holiday calendar (`today in self.uk_holidays`). -/
def isHoliday (hs : List Date) (d : Date) : Bool :=
  decide (d ∈ hs)

/--
Fuel-indexed embedding of the `while check_date.weekday() >= 5 or
check_date in self.uk_holidays: check_date += timedelta(days=1)` loop of
`_next_business_day`.  The holiday calendar is an arbitrary decidable set
`hol`; `none` means the fuel ran out before a business day was found.
-/
def nbAux (hol : Date → Bool) : Nat → Date → Option Date
  | fuel, d =>
    if 5 ≤ weekday d ∨ hol d = true then
      match fuel with
      | 0 => none
      | f + 1 => nbAux hol f (succDate d)
    else some d

/-- A business day for calendar `hol`: a weekday that is not a holiday. -/
def BusinessDay (hol : Date → Bool) (d : Date) : Prop :=
  weekday d < 5 ∧ hol d = false

instance (hol : Date → Bool) (d : Date) : Decidable (BusinessDay hol d) := by
  unfold BusinessDay; infer_instance

/-- Largest ordinal occurring in a holiday list (0 when empty). -/
def maxOrd : List Date → Nat
  | [] => 0
  | a :: l => max (toOrdinal a) (maxOrd l)

theorem toOrdinal_le_maxOrd {hs : List Date} {x : Date} (h : x ∈ hs) :
    toOrdinal x ≤ maxOrd hs := by
  induction hs with
  | nil => cases h
  | cons a l ih =>
    rw [List.mem_cons] at h
    rcases h with rfl | h
    · exact le_max_left _ _
    · exact le_trans (ih h) (le_max_right _ _)

/-- A business day falsifies the loop's continuation condition. -/
theorem not_loop_cond {hol : Date → Bool} {d : Date} (hb : BusinessDay hol d) :
    ¬(5 ≤ weekday d ∨ hol d = true) := by
  obtain ⟨hw, hh⟩ := hb
  intro hx
  rcases hx with hx | hx
  · omega
  · rw [hh] at hx
    exact Bool.false_ne_true hx

/-- A non-business day satisfies the loop's continuation condition. -/
theorem loop_cond_of_not {hol : Date → Bool} {d : Date} (hb : ¬BusinessDay hol d) :
    5 ≤ weekday d ∨ hol d = true := by
  by_contra hc
  push_neg at hc
  obtain ⟨hw, hh⟩ := hc
  exact hb ⟨by omega, by simpa using hh⟩

/--
Characterization of the loop: whenever some iterate within the fuel bound
is a business day, the loop returns the first such iterate.
-/
theorem nbAux_spec (hol : Date → Bool) (fuel : Nat) (d : Date)
    (h : ∃ k, k ≤ fuel ∧ BusinessDay hol (succDate^[k] d)) :
    ∃ k, nbAux hol fuel d = some (succDate^[k] d) ∧
      BusinessDay hol (succDate^[k] d) ∧
      ∀ j < k, ¬BusinessDay hol (succDate^[j] d) := by
  induction fuel generalizing d with
  | zero =>
    obtain ⟨k, hk, hb⟩ := h
    have hk0 : k = 0 := by omega
    rw [hk0] at hb
    simp only [Function.iterate_zero_apply] at hb
    refine ⟨0, ?_, by simpa using hb, fun j hj => absurd hj (Nat.not_lt_zero j)⟩
    unfold nbAux
    rw [if_neg (not_loop_cond hb)]
    simp
  | succ f ih =>
    by_cases hd : BusinessDay hol d
    · refine ⟨0, ?_, by simpa using hd, fun j hj => absurd hj (Nat.not_lt_zero j)⟩
      unfold nbAux
      rw [if_neg (not_loop_cond hd)]
      simp
    · have hcond : 5 ≤ weekday d ∨ hol d = true := loop_cond_of_not hd
      obtain ⟨k, hk, hb⟩ := h
      have hkpos : k ≠ 0 := by
        intro h0
        rw [h0] at hb
        simp only [Function.iterate_zero_apply] at hb
        exact hd hb
      obtain ⟨k1, rfl⟩ : ∃ k1, k = k1 + 1 := ⟨k - 1, by omega⟩
      have hshift : ∃ k2, k2 ≤ f ∧ BusinessDay hol (succDate^[k2] (succDate d)) := by
        refine ⟨k1, by omega, ?_⟩
        rw [← Function.iterate_succ_apply]
        exact hb
      obtain ⟨k0, hres, hbus, hleast⟩ := ih (succDate d) hshift
      refine ⟨k0 + 1, ?_, ?_, ?_⟩
      · unfold nbAux
        rw [if_pos hcond]
        rw [Function.iterate_succ_apply]
        exact hres
      · rw [Function.iterate_succ_apply]
        exact hbus
      · intro j hj
        match j with
        | 0 =>
          simpa using hd
        | j + 1 =>
          rw [Function.iterate_succ_apply]
          exact hleast j (by omega)

/--
From any valid date, a business day is reachable within
`maxOrd hs + 14` steps, for any finite holiday list `hs`.
-/
theorem exists_business_le (hs : List Date) (d : Date) (hv : d.Valid) :
    ∃ k, k ≤ maxOrd hs + 14 ∧ BusinessDay (isHoliday hs) (succDate^[k] d) := by
  set t := toOrdinal d with ht
  have ht1 : 1 ≤ t := toOrdinal_pos hv
  set M := maxOrd hs with hM
  -- target ordinal: first ordinal ≥ max t (M+1) that is ≡ 1 (mod 7), i.e. a Monday
  set m := max t (M + 1) with hm
  set o := m + (8 - m % 7) % 7 with ho
  have ho7 : o % 7 = 1 := by omega
  have hom : m ≤ o ∧ o ≤ m + 6 := by omega
  set k := o - t with hk
  have hkt : t ≤ o := by
    rcases le_total t (M + 1) with hc | hc <;> omega
  obtain ⟨hvi, hoi⟩ := succDate_iter_spec hv k
  have hord : toOrdinal (succDate^[k] d) = o := by omega
  refine ⟨k, ?_, ?_, ?_⟩
  · rcases le_total t (M + 1) with hc | hc <;> omega
  · unfold weekday
    omega
  · rw [isHoliday]
    simp only [decide_eq_false_iff_not]
    intro hmem
    have := toOrdinal_le_maxOrd hmem
    omega

-- Scheduler data model (`data/models/cache.py`, `data/cache/scheduler.py`) --

/-- Reason codes for cache refresh decisions (`RefreshReason` enum).
`cachedWeekend` is the single enum value the source reuses for both the
weekend and the holiday gate (the spec's CachedWeekendOrHoliday). -/
inductive RefreshReason
  | initialFetch
  | forcedRefresh
  | dailyUpdateExpected
  | monthlyUpdateExpected
  | alreadyCurrent
  | cachedWeekend
  | cachedBeforeCheckTime
  | cachedBeforeReleaseDay
  | fetchFailedUsingStale
deriving DecidableEq

/-- `RefreshSchedule.frequency` values. -/
inductive Frequency
  | daily
  | monthly
deriving DecidableEq

/-- Configuration for a dataset's refresh schedule (`RefreshSchedule`).
`check_time` is minutes since midnight. -/
structure RefreshSchedule where
  frequency : Frequency
  check_time : Nat
  publication_day : Option Nat := none
  weekdays_only : Bool := true
deriving DecidableEq

/-- Result of refresh decision logic (`RefreshDecision`). -/
structure RefreshDecision where
  should_refresh : Bool
  reason : RefreshReason
  next_expected : DateTime
deriving DecidableEq

/-- The fixed schedule table (`RefreshScheduler.SCHEDULES`), accessed with
`dict.get` semantics (`none` for an unknown dataset). -/
def lookupSchedule (dataset : String) : Option RefreshSchedule :=
  if dataset = "monetary" then
    some { frequency := .daily, check_time := 10 * 60 }
  else if dataset = "housing" then
    some { frequency := .monthly, check_time := 15 * 60, publication_day := some 20 }
  else if dataset = "economic" then
    some { frequency := .monthly, check_time := 12 * 60, publication_day := some 15 }
  else none

/-- Python's `schedule.publication_day or 15` (`or` treats both `None` and
`0` as falsy). -/
def pubDayOr15 : Option Nat → Nat
  | none => 15
  | some p => if p = 0 then 15 else p

/-- `RefreshScheduler._next_business_day`: the fuel bound `maxOrd hs + 14`
is proved sufficient for every valid start date (`exists_business_le`), so
the `none` fallback below is unreachable there. -/
def nextBusinessDay (hs : List Date) (from_date : Date) (at_time : Nat) : DateTime :=
  match nbAux (isHoliday hs) (maxOrd hs + 14) from_date with
  | some r => ⟨r, at_time⟩
  | none => ⟨from_date, at_time⟩

/-- `RefreshScheduler._publication_datetime`: clamps the day to the month
length. -/
def publicationDatetime (year month day : Nat) (at_time : Nat) : DateTime :=
  ⟨⟨year, month, min day (monthLength year month)⟩, at_time⟩

/-- `RefreshScheduler._calculate_next_expected`. -/
def calculateNextExpected (hs : List Date) (schedule : RefreshSchedule)
    (from_datetime : DateTime) : DateTime :=
  match schedule.frequency with
  | .daily => nextBusinessDay hs (succDate from_datetime.date) schedule.check_time
  | .monthly =>
    let month0 := from_datetime.date.month + 1
    let year := if month0 > 12 then from_datetime.date.year + 1 else from_datetime.date.year
    let month := if month0 > 12 then 1 else month0
    publicationDatetime year month (pubDayOr15 schedule.publication_day) schedule.check_time

/-- `RefreshScheduler._check_daily_refresh`. -/
def checkDailyRefresh (hs : List Date) (schedule : RefreshSchedule)
    (last_fetch now : DateTime) : RefreshDecision :=
  let today := now.date
  if last_fetch.date = today ∧ dtLe ⟨today, schedule.check_time⟩ last_fetch then
    { should_refresh := false
      reason := .alreadyCurrent
      next_expected := calculateNextExpected hs schedule now }
  else if schedule.weekdays_only = true ∧ 5 ≤ weekday today then
    { should_refresh := false
      reason := .cachedWeekend
      next_expected := nextBusinessDay hs today schedule.check_time }
  else if schedule.weekdays_only = true ∧ isHoliday hs today = true then
    { should_refresh := false
      reason := .cachedWeekend
      next_expected := nextBusinessDay hs (succDate today) schedule.check_time }
  else if dtLt now ⟨today, schedule.check_time⟩ then
    { should_refresh := false
      reason := .cachedBeforeCheckTime
      next_expected := ⟨today, schedule.check_time⟩ }
  else
    { should_refresh := true
      reason := .dailyUpdateExpected
      next_expected := calculateNextExpected hs schedule now }

/-- `RefreshScheduler._check_monthly_refresh`. -/
def checkMonthlyRefresh (hs : List Date) (schedule : RefreshSchedule)
    (last_fetch now : DateTime) : RefreshDecision :=
  let today := now.date
  let pub_day := pubDayOr15 schedule.publication_day
  if last_fetch.date.year = today.year ∧ last_fetch.date.month = today.month ∧
      pub_day ≤ last_fetch.date.day then
    { should_refresh := false
      reason := .alreadyCurrent
      next_expected := calculateNextExpected hs schedule now }
  else if today.day < pub_day then
    { should_refresh := false
      reason := .cachedBeforeReleaseDay
      next_expected := publicationDatetime today.year today.month pub_day schedule.check_time }
  else
    let check_datetime : DateTime :=
      ⟨⟨today.year, today.month, min pub_day (monthLength today.year today.month)⟩,
        schedule.check_time⟩
    if dtLt now check_datetime then
      { should_refresh := false
        reason := .cachedBeforeCheckTime
        next_expected := check_datetime }
    else
      { should_refresh := true
        reason := .monthlyUpdateExpected
        next_expected := calculateNextExpected hs schedule now }

/-- Error raised for a dataset missing from the schedule table
(`ValueError(f"Unknown dataset: ...")`). -/
inductive SchedulerError
  | unknownDataset
deriving DecidableEq

/-- Ambient environment: the value `datetime.now(...)` would return.
Functions that never read the clock take it as an ignored argument, so
clock (in)dependence is visible in each definition. -/
structure Env where
  clock : DateTime

/-- `RefreshScheduler.should_refresh_at(dataset, last_fetch, at_time)`.
The body never consults `env.clock`: the source performs no `datetime.now`
read on this path. -/
def shouldRefreshAt (env : Env) (hs : List Date) (dataset : String)
    (last_fetch : Option DateTime) (at_time : DateTime) :
    Except SchedulerError RefreshDecision :=
  match lookupSchedule dataset with
  | none => .error .unknownDataset
  | some schedule =>
    match last_fetch with
    | none =>
      .ok { should_refresh := true
            reason := .initialFetch
            next_expected := calculateNextExpected hs schedule at_time }
    | some lf =>
      match schedule.frequency with
      | .daily => .ok (checkDailyRefresh hs schedule lf at_time)
      | .monthly => .ok (checkMonthlyRefresh hs schedule lf at_time)

/-- `RefreshScheduler.should_refresh(dataset, last_fetch)`: reads the
ambient clock once (`now = datetime.now(self.uk_tz)`) and then runs the
same decision logic. -/
def shouldRefresh (env : Env) (hs : List Date) (dataset : String)
    (last_fetch : Option DateTime) : Except SchedulerError RefreshDecision :=
  match lookupSchedule dataset with
  | none => .error .unknownDataset
  | some schedule =>
    let now := env.clock
    match last_fetch with
    | none =>
      .ok { should_refresh := true
            reason := .initialFetch
            next_expected := calculateNextExpected hs schedule now }
    | some lf =>
      match schedule.frequency with
      | .daily => .ok (checkDailyRefresh hs schedule lf now)
      | .monthly => .ok (checkMonthlyRefresh hs schedule lf now)

-- Next-business-day characterization --------------------------------------

/--
`r` is "the next business day at `at_time`", searching from `start`:
`r.date` is the first iterate of `succDate` from `start` (the start itself
allowed) that is a business day for calendar `hol`, and `r.time = at_time`.
-/
def NextBusinessAt (hol : Date → Bool) (start : Date) (at_time : Nat) (r : DateTime) : Prop :=
  r.time = at_time ∧ ∃ k, r.date = succDate^[k] start ∧ BusinessDay hol r.date ∧
    ∀ j < k, ¬BusinessDay hol (succDate^[j] start)

theorem nextBusinessDay_spec (hs : List Date) (start : Date) (at_time : Nat)
    (hv : start.Valid) :
    NextBusinessAt (isHoliday hs) start at_time (nextBusinessDay hs start at_time) := by
  obtain ⟨k, hres, hb, hleast⟩ :=
    nbAux_spec (isHoliday hs) (maxOrd hs + 14) start (exists_business_le hs start hv)
  unfold nextBusinessDay
  rw [hres]
  exact ⟨rfl, k, rfl, by simpa using hb, hleast⟩

theorem nextBusinessDay_spec_shift (hs : List Date) (start : Date) (at_time : Nat)
    (hv : start.Valid) (hnb : ¬BusinessDay (isHoliday hs) start) :
    NextBusinessAt (isHoliday hs) (succDate start) at_time
      (nextBusinessDay hs start at_time) := by
  obtain ⟨ht, k, hdate, hb, hleast⟩ := nextBusinessDay_spec hs start at_time hv
  have hk : k ≠ 0 := by
    intro h0
    rw [h0] at hdate
    simp only [Function.iterate_zero_apply] at hdate
    rw [hdate] at hb
    exact hnb hb
  obtain ⟨k1, rfl⟩ : ∃ k1, k = k1 + 1 := ⟨k - 1, by omega⟩
  refine ⟨ht, k1, ?_, hb, ?_⟩
  · rw [hdate, Function.iterate_succ_apply]
  · intro j hj
    have h := hleast (j + 1) (by omega)
    rw [Function.iterate_succ_apply] at h
    exact h

theorem dateLt_irrefl (d : Date) : ¬dateLt d d := by
  unfold dateLt
  omega

/-- The source's branch-1 guard (`last_fetch_date == today` and
`last_fetch >= check_datetime`) is exactly "same calendar date and
time-of-day at or after check time". -/
theorem daily_guard_iff (ct : Nat) (lf now : DateTime) :
    (lf.date = now.date ∧ dtLe ⟨now.date, ct⟩ lf) ↔
      (lf.date = now.date ∧ ct ≤ lf.time) := by
  constructor <;> rintro ⟨hd, hc⟩
  · refine ⟨hd, ?_⟩
    rcases hc with hlt | ⟨-, hle⟩
    · rw [hd] at hlt
      exact absurd hlt (dateLt_irrefl now.date)
    · exact hle
  · exact ⟨hd, Or.inr ⟨hd.symm, hc⟩⟩

/-- `now < datetime.combine(now.date(), check_time)` is exactly "now's
time-of-day is before check time". -/
theorem dtLt_same_date (now : DateTime) (ct : Nat) :
    dtLt now ⟨now.date, ct⟩ ↔ now.time < ct := by
  unfold dtLt
  constructor
  · rintro (hlt | ⟨-, h⟩)
    · exact absurd hlt (dateLt_irrefl now.date)
    · exact h
  · intro h
    exact Or.inr ⟨rfl, h⟩

-- C1 ----------------------------------------------------------------------

/--
**C1** — Daily cadence: for every daily-scheduled dataset, last_fetch and
now, `should_refresh_at` decides in this priority order: (1) AlreadyCurrent
(no refresh) when last_fetch is on now's calendar date with time-of-day at
or after check_time; else (2) CachedWeekendOrHoliday (no refresh, reason
`cachedWeekend`) with next_expected = next business day at check_time when
now's date is a weekend or holiday and weekdays_only is set; else (3)
CachedBeforeCheckTime (no refresh) with next_expected = today at
check_time when now is before check_time; else (4) refresh with
DailyUpdateExpected and next_expected = next business day at check_time.
-/
theorem daily_cadence_correct (env : Env) (hs : List Date) (dataset : String)
    (s : RefreshSchedule) (lf now : DateTime)
    (hlook : lookupSchedule dataset = some s) (hfreq : s.frequency = .daily)
    (hval : now.date.Valid) :
    ∃ dec, shouldRefreshAt env hs dataset (some lf) now = .ok dec ∧
      ((lf.date = now.date ∧ s.check_time ≤ lf.time) →
        dec.should_refresh = false ∧ dec.reason = .alreadyCurrent) ∧
      (¬(lf.date = now.date ∧ s.check_time ≤ lf.time) →
        (s.weekdays_only = true ∧ (5 ≤ weekday now.date ∨ isHoliday hs now.date = true)) →
        dec.should_refresh = false ∧ dec.reason = .cachedWeekend ∧
          NextBusinessAt (isHoliday hs) (succDate now.date) s.check_time
            dec.next_expected) ∧
      (¬(lf.date = now.date ∧ s.check_time ≤ lf.time) →
        ¬(s.weekdays_only = true ∧ (5 ≤ weekday now.date ∨ isHoliday hs now.date = true)) →
        now.time < s.check_time →
        dec = ⟨false, .cachedBeforeCheckTime, ⟨now.date, s.check_time⟩⟩) ∧
      (¬(lf.date = now.date ∧ s.check_time ≤ lf.time) →
        ¬(s.weekdays_only = true ∧ (5 ≤ weekday now.date ∨ isHoliday hs now.date = true)) →
        ¬(now.time < s.check_time) →
        dec.should_refresh = true ∧ dec.reason = .dailyUpdateExpected ∧
          NextBusinessAt (isHoliday hs) (succDate now.date) s.check_time
            dec.next_expected) := by
  refine ⟨checkDailyRefresh hs s lf now, ?_, ?_, ?_, ?_, ?_⟩
  · simp [shouldRefreshAt, hlook, hfreq]
  · intro h1
    have hA : lf.date = now.date ∧ dtLe ⟨now.date, s.check_time⟩ lf :=
      (daily_guard_iff s.check_time lf now).mpr h1
    simp [checkDailyRefresh, hA]
  · intro hn1 h2
    have hA : ¬(lf.date = now.date ∧ dtLe ⟨now.date, s.check_time⟩ lf) :=
      fun hx => hn1 ((daily_guard_iff s.check_time lf now).mp hx)
    obtain ⟨hwo, hwh⟩ := h2
    by_cases hB : s.weekdays_only = true ∧ 5 ≤ weekday now.date
    · have hnb : ¬BusinessDay (isHoliday hs) now.date := by
        intro hb
        exact absurd hb.1 (by omega)
      unfold checkDailyRefresh
      rw [if_neg hA, if_pos hB]
      exact ⟨rfl, rfl, nextBusinessDay_spec_shift hs now.date s.check_time hval hnb⟩
    · have hwd : weekday now.date < 5 := by
        rcases hwh with hwd | hhol
        · exact absurd ⟨hwo, hwd⟩ hB
        · by_contra hc
          exact hB ⟨hwo, by omega⟩
      have hhol : isHoliday hs now.date = true := by
        rcases hwh with hwd5 | hhol
        · omega
        · exact hhol
      unfold checkDailyRefresh
      rw [if_neg hA, if_neg hB, if_pos ⟨hwo, hhol⟩]
      exact ⟨rfl, rfl,
        nextBusinessDay_spec hs (succDate now.date) s.check_time (succDate_valid hval)⟩
  · intro hn1 hn2 h3
    have hA : ¬(lf.date = now.date ∧ dtLe ⟨now.date, s.check_time⟩ lf) :=
      fun hx => hn1 ((daily_guard_iff s.check_time lf now).mp hx)
    have hB : ¬(s.weekdays_only = true ∧ 5 ≤ weekday now.date) :=
      fun hx => hn2 ⟨hx.1, Or.inl hx.2⟩
    have hC : ¬(s.weekdays_only = true ∧ isHoliday hs now.date = true) :=
      fun hx => hn2 ⟨hx.1, Or.inr hx.2⟩
    have hD : dtLt now ⟨now.date, s.check_time⟩ := (dtLt_same_date now s.check_time).mpr h3
    unfold checkDailyRefresh
    rw [if_neg hA, if_neg hB, if_neg hC, if_pos hD]
  · intro hn1 hn2 hn3
    have hA : ¬(lf.date = now.date ∧ dtLe ⟨now.date, s.check_time⟩ lf) :=
      fun hx => hn1 ((daily_guard_iff s.check_time lf now).mp hx)
    have hB : ¬(s.weekdays_only = true ∧ 5 ≤ weekday now.date) :=
      fun hx => hn2 ⟨hx.1, Or.inl hx.2⟩
    have hC : ¬(s.weekdays_only = true ∧ isHoliday hs now.date = true) :=
      fun hx => hn2 ⟨hx.1, Or.inr hx.2⟩
    have hD : ¬dtLt now ⟨now.date, s.check_time⟩ :=
      fun hx => hn3 ((dtLt_same_date now s.check_time).mp hx)
    unfold checkDailyRefresh
    rw [if_neg hA, if_neg hB, if_neg hC, if_neg hD]
    refine ⟨rfl, rfl, ?_⟩
    show NextBusinessAt (isHoliday hs) (succDate now.date) s.check_time
      (calculateNextExpected hs s now)
    unfold calculateNextExpected
    rw [hfreq]
    exact nextBusinessDay_spec hs (succDate now.date) s.check_time (succDate_valid hval)

/--
Witness for C1 at the spec's own example: daily dataset "monetary"
(check 10:00), last_fetch Tuesday 2026-10-06 11:00, now Wednesday
2026-10-07 09:00 → no refresh, CachedBeforeCheckTime, next_expected today
at 10:00.
-/
theorem daily_cadence_correct_witness :
    ∃ dec, shouldRefreshAt ⟨⟨⟨2026, 1, 1⟩, 0⟩⟩ [] "monetary"
        (some ⟨⟨2026, 10, 6⟩, 11 * 60⟩) ⟨⟨2026, 10, 7⟩, 9 * 60⟩ = .ok dec ∧
      dec = ⟨false, .cachedBeforeCheckTime, ⟨⟨2026, 10, 7⟩, 10 * 60⟩⟩ := by
  obtain ⟨dec, hok, h1, h2, h3, h4⟩ :=
    daily_cadence_correct ⟨⟨⟨2026, 1, 1⟩, 0⟩⟩ [] "monetary" _
      ⟨⟨2026, 10, 6⟩, 11 * 60⟩ ⟨⟨2026, 10, 7⟩, 9 * 60⟩ rfl rfl (by decide)
  exact ⟨dec, hok, h3 (by decide) (by decide) (by decide)⟩

-- C2 ----------------------------------------------------------------------

/--
Spec-side variant of the monthly check, written from the spec's words
("month-length clamping for publication_day must be applied identically
whether computing is-today-past-publication-day or next_expected"): the
publication day used in the last_fetch comparison and in the now
comparison is the month-length-clamped value for now's month.
-/
def checkMonthlyClampedSpec (hs : List Date) (schedule : RefreshSchedule)
    (last_fetch now : DateTime) : RefreshDecision :=
  let today := now.date
  let pub_day := pubDayOr15 schedule.publication_day
  let clamped := min pub_day (monthLength today.year today.month)
  if last_fetch.date.year = today.year ∧ last_fetch.date.month = today.month ∧
      clamped ≤ last_fetch.date.day then
    { should_refresh := false
      reason := .alreadyCurrent
      next_expected := calculateNextExpected hs schedule now }
  else if today.day < clamped then
    { should_refresh := false
      reason := .cachedBeforeReleaseDay
      next_expected := publicationDatetime today.year today.month pub_day schedule.check_time }
  else
    let check_datetime : DateTime :=
      ⟨⟨today.year, today.month, min pub_day (monthLength today.year today.month)⟩,
        schedule.check_time⟩
    if dtLt now check_datetime then
      { should_refresh := false
        reason := .cachedBeforeCheckTime
        next_expected := check_datetime }
    else
      { should_refresh := true
        reason := .monthlyUpdateExpected
        next_expected := calculateNextExpected hs schedule now }

/-- For every monthly dataset of the schedule table, the publication day
fits every month (both are at most 28 ≤ month length). -/
theorem table_monthly_pubDay_le_28 {dataset : String} {s : RefreshSchedule}
    (hlook : lookupSchedule dataset = some s) (hfreq : s.frequency = .monthly) :
    pubDayOr15 s.publication_day ≤ 28 := by
  unfold lookupSchedule at hlook
  split_ifs at hlook
  · have hse := Option.some.inj hlook
    rw [← hse] at hfreq
    simp at hfreq
  · have hse := Option.some.inj hlook
    rw [← hse]
    decide
  · have hse := Option.some.inj hlook
    rw [← hse]
    decide

/--
**C2** — Monthly cadence clamp consistency: for every monthly-scheduled
dataset and every (last_fetch, now), the monthly check behaves exactly as
its clamped variant (the day used in both comparisons is the
month-length-clamped publication day, the same value used for
next_expected); in particular, once now's day-of-month reaches the clamped
publication day, the CachedBeforeReleaseDay branch no longer applies.
-/
theorem monthly_clamp_consistent (hs : List Date) (dataset : String)
    (s : RefreshSchedule) (lf now : DateTime)
    (hlook : lookupSchedule dataset = some s) (hfreq : s.frequency = .monthly) :
    checkMonthlyRefresh hs s lf now = checkMonthlyClampedSpec hs s lf now ∧
      (min (pubDayOr15 s.publication_day)
          (monthLength now.date.year now.date.month) ≤ now.date.day →
        (checkMonthlyRefresh hs s lf now).reason ≠ .cachedBeforeReleaseDay) := by
  have hp := table_monthly_pubDay_le_28 hlook hfreq
  have hlen := monthLength_ge_28 now.date.year now.date.month
  have hmin : min (pubDayOr15 s.publication_day)
      (monthLength now.date.year now.date.month) = pubDayOr15 s.publication_day :=
    min_eq_left (le_trans hp hlen)
  constructor
  · show checkMonthlyRefresh hs s lf now = checkMonthlyClampedSpec hs s lf now
    unfold checkMonthlyRefresh checkMonthlyClampedSpec
    simp only [hmin]
  · intro hle
    rw [hmin] at hle
    unfold checkMonthlyRefresh
    simp only []
    split_ifs with h1 h2 h3
    · simp
    · omega
    · simp
    · simp

/-- The "housing" entry of the schedule table, for concrete witnesses. -/
def housingSchedule : RefreshSchedule :=
  { frequency := .monthly, check_time := 15 * 60, publication_day := some 20 }

/--
Witness for C2: monthly dataset "housing" (publication day 20), last_fetch
2025-12-21 16:00, now 2026-01-25 16:00 (day ≥ clamped publication day).
-/
theorem monthly_clamp_consistent_witness :
    checkMonthlyRefresh [] housingSchedule ⟨⟨2025, 12, 21⟩, 16 * 60⟩
        ⟨⟨2026, 1, 25⟩, 16 * 60⟩ =
      checkMonthlyClampedSpec [] housingSchedule ⟨⟨2025, 12, 21⟩, 16 * 60⟩
        ⟨⟨2026, 1, 25⟩, 16 * 60⟩ ∧
    (checkMonthlyRefresh [] housingSchedule ⟨⟨2025, 12, 21⟩, 16 * 60⟩
        ⟨⟨2026, 1, 25⟩, 16 * 60⟩).reason ≠ .cachedBeforeReleaseDay := by
  obtain ⟨he, hr⟩ := monthly_clamp_consistent [] "housing" housingSchedule
    ⟨⟨2025, 12, 21⟩, 16 * 60⟩ ⟨⟨2026, 1, 25⟩, 16 * 60⟩ rfl rfl
  exact ⟨he, hr (by decide)⟩

-- Cache manager (`data/cache/manager.py`) ---------------------------------

/-- Observable surface of a `pandas.DataFrame` as used by `manager.py`:
named columns carrying (date-convertible) values, and a row count.
Column values are the dates as ordinals, standing in for
`pd.to_datetime(...)` results. -/
structure DataFrame where
  cols : List (String × List Nat)
  nrows : Nat
deriving DecidableEq

/-- `data.columns`. -/
def DataFrame.columns (df : DataFrame) : List String :=
  df.cols.map Prod.fst

/-- `pd.Series.max()` over a column: `none` on an empty column (NaT). -/
def listMax : List Nat → Option Nat
  | [] => none
  | x :: xs =>
    match listMax xs with
    | none => some x
    | some m => some (max x m)

/-- `put`'s data_date scan: the first of the prioritized date columns
present in the payload, taking that column's maximum; `none` models the
`"unknown"` sentinel. -/
def computeDataDate (df : DataFrame) : Option Nat :=
  match ["date", "ref_month", "observation_date"].find?
      (fun c => df.columns.contains c) with
  | none => none
  | some c =>
    match df.cols.find? (fun p => p.1 == c) with
    | none => none
    | some p => listMax p.2

/-- Contents of one on-disk file. -/
inductive FileContent (α : Type)
  | missing
  | corrupt
  | good (v : α)
deriving DecidableEq

/-- `CacheMetadata` (`data/models/cache.py`); `data_date : Option Nat`
models the ISO string, `none` standing for the `"unknown"` sentinel. -/
structure CacheMetadata where
  dataset : String
  last_fetch : DateTime
  next_expected : DateTime
  data_date : Option Nat
  refresh_reason : RefreshReason
  record_count : Nat
  is_stale : Bool := false
deriving DecidableEq

/-- The two per-dataset cache files (`{dataset}.parquet`, `{dataset}.json`). -/
structure Store where
  payloadFile : String → FileContent DataFrame
  metaFile : String → FileContent CacheMetadata

/-- Overwrite one dataset's file. -/
def updateFile {α : Type} (f : String → FileContent α) (k : String)
    (v : FileContent α) : String → FileContent α :=
  fun x => if x = k then v else f x

/-- `CacheManager.get`: returns `(None, None)` on a missing file or on a
read that raises (corrupt content); the `except` swallows everything. -/
def getCache (st : Store) (dataset : String) :
    Option DataFrame × Option CacheMetadata :=
  if st.payloadFile dataset = .missing ∨ st.metaFile dataset = .missing then
    (none, none)
  else
    match st.payloadFile dataset with
    | .corrupt => (none, none)
    | .missing => (none, none)
    | .good df =>
      match st.metaFile dataset with
      | .corrupt => (none, none)
      | .missing => (none, none)
      | .good m => (some df, some m)

/-- Errors surfaced by `CacheManager.put`: the scheduler's `ValueError`
(propagated before any write) or a `CacheWriteError`. -/
inductive CacheError
  | schedulerError (e : SchedulerError)
  | cacheWriteError (dataset : String)
deriving DecidableEq

/-- `CacheManager.put`.  The source reads `now = datetime.now()` and then
calls `self.scheduler.should_refresh(dataset, now)` — passing `now` as the
`last_fetch` argument — solely to harvest `next_expected`.  The two fault
flags model whether `to_parquet` and `write_text` succeed; the pair
returned is (result, resulting filesystem). -/
def putCache (hs : List Date) (env : Env) (st : Store) (dataset : String)
    (data : DataFrame) (refresh_reason : RefreshReason)
    (payloadWriteOk metaWriteOk : Bool) :
    Except CacheError CacheMetadata × Store :=
  match shouldRefresh env hs dataset (some env.clock) with
  | .error e => (.error (.schedulerError e), st)
  | .ok decision =>
    let metadata : CacheMetadata :=
      { dataset := dataset
        last_fetch := env.clock
        next_expected := decision.next_expected
        data_date := computeDataDate data
        refresh_reason := refresh_reason
        record_count := data.nrows }
    if payloadWriteOk then
      let st1 : Store :=
        { st with payloadFile := updateFile st.payloadFile dataset (.good data) }
      if metaWriteOk then
        (.ok metadata,
          { st1 with metaFile := updateFile st1.metaFile dataset (.good metadata) })
      else (.error (.cacheWriteError dataset), st1)
    else (.error (.cacheWriteError dataset), st)

/-- `CacheManager.get_metadata`: `None` on a missing file or a read that
raises. -/
def getMetadataM (st : Store) (dataset : String) : Option CacheMetadata :=
  match st.metaFile dataset with
  | .missing => none
  | .corrupt => none
  | .good m => some m

/-- `CacheManager.needs_refresh`. -/
def needsRefresh (hs : List Date) (env : Env) (st : Store) (dataset : String) :
    Except SchedulerError RefreshDecision :=
  match getMetadataM st dataset with
  | none => shouldRefresh env hs dataset none
  | some m => shouldRefresh env hs dataset (some m.last_fetch)

/-- `CacheManager.mark_stale`: a no-op when the metadata file is missing;
read or write failures are caught and logged, leaving the store unchanged. -/
def markStale (st : Store) (dataset : String) (writeOk : Bool) : Store :=
  match st.metaFile dataset with
  | .missing => st
  | .corrupt => st
  | .good m =>
    let m2 : CacheMetadata :=
      { dataset := m.dataset
        last_fetch := m.last_fetch
        next_expected := m.next_expected
        data_date := m.data_date
        refresh_reason := .fetchFailedUsingStale
        record_count := m.record_count
        is_stale := true }
    if writeOk then { st with metaFile := updateFile st.metaFile dataset (.good m2) }
    else st

/-- For a dataset present in the schedule table, the clocked decision entry
point never raises. -/
theorem shouldRefresh_ok_of_known {env : Env} {hs : List Date} {dataset : String}
    {lf : Option DateTime} {s : RefreshSchedule}
    (hsome : lookupSchedule dataset = some s) :
    ∃ dec, shouldRefresh env hs dataset lf = .ok dec := by
  unfold shouldRefresh
  rw [hsome]
  obtain ⟨freq, ct, pd, wo⟩ := s
  cases lf with
  | none => exact ⟨_, rfl⟩
  | some lfv => cases freq <;> exact ⟨_, rfl⟩

-- Concrete fixtures for witnesses -----------------------------------------

/-- The "monetary" entry of the schedule table, for concrete witnesses. -/
def monetarySchedule : RefreshSchedule :=
  { frequency := .daily, check_time := 10 * 60 }

/-- A store with no files on disk. -/
def emptyStore : Store :=
  ⟨fun _ => .missing, fun _ => .missing⟩

/-- A one-row payload with a `date` column. -/
def df0 : DataFrame :=
  ⟨[("date", [100])], 1⟩

/-- A two-row payload, distinct from `df0`. -/
def df1 : DataFrame :=
  ⟨[("date", [101, 102])], 2⟩

/-- A persisted metadata record for "monetary". -/
def md0 : CacheMetadata :=
  ⟨"monetary", ⟨⟨2026, 1, 2⟩, 11 * 60⟩, ⟨⟨2026, 1, 5⟩, 10 * 60⟩, some 100,
    .initialFetch, 1, false⟩

/-- A store holding the pair (`df0`, `md0`) for "monetary" only. -/
def st0 : Store :=
  ⟨fun x => if x = "monetary" then .good df0 else .missing,
   fun x => if x = "monetary" then .good md0 else .missing⟩

/-- A concrete clock: Tuesday 2026-01-06 11:00. -/
def env0 : Env :=
  ⟨⟨⟨2026, 1, 6⟩, 11 * 60⟩⟩

-- C6 ----------------------------------------------------------------------

/--
**C6** — Determinism of decide: `should_refresh_at` is a pure function of
its explicit inputs: its result is independent of the ambient clock
environment (so two calls with identical inputs are identical), and the
clocked entry point `should_refresh` equals it at the single clock value
read on entry — there is no implicit clock read inside the decision logic.
-/
theorem decide_deterministic (env1 env2 : Env) (hs : List Date) (dataset : String)
    (lf : Option DateTime) (at_time : DateTime) :
    shouldRefreshAt env1 hs dataset lf at_time =
      shouldRefreshAt env2 hs dataset lf at_time ∧
    shouldRefresh env1 hs dataset lf = shouldRefreshAt env1 hs dataset lf env1.clock :=
  ⟨rfl, rfl⟩

-- C5 ----------------------------------------------------------------------

/--
**C5** — Initial fetch: for every dataset in the schedule table and every
now, deciding with `last_fetch = None` refreshes with reason InitialFetch
and next_expected computed from now by the cadence rule
(`_calculate_next_expected`); likewise `needs_refresh` on a dataset with
no metadata yields this InitialFetch decision.
-/
theorem initial_fetch_decision (env : Env) (hs : List Date) (dataset : String)
    (at_time : DateTime) (s : RefreshSchedule)
    (hsome : lookupSchedule dataset = some s) :
    shouldRefreshAt env hs dataset none at_time =
      .ok { should_refresh := true, reason := .initialFetch,
            next_expected := calculateNextExpected hs s at_time } ∧
    ∀ st : Store, getMetadataM st dataset = none →
      needsRefresh hs env st dataset =
        .ok { should_refresh := true, reason := .initialFetch,
              next_expected := calculateNextExpected hs s env.clock } := by
  constructor
  · unfold shouldRefreshAt
    rw [hsome]
  · intro st hmeta
    unfold needsRefresh
    rw [hmeta]
    unfold shouldRefresh
    rw [hsome]

/-- Witness for C5 at dataset "monetary" and the empty store. -/
theorem initial_fetch_decision_witness :
    shouldRefreshAt env0 [] "monetary" none ⟨⟨2026, 1, 2⟩, 11 * 60⟩ =
      .ok { should_refresh := true, reason := .initialFetch,
            next_expected :=
              calculateNextExpected [] monetarySchedule ⟨⟨2026, 1, 2⟩, 11 * 60⟩ } ∧
    needsRefresh [] env0 emptyStore "monetary" =
      .ok { should_refresh := true, reason := .initialFetch,
            next_expected := calculateNextExpected [] monetarySchedule env0.clock } := by
  obtain ⟨h1, h2⟩ := initial_fetch_decision env0 [] "monetary"
    ⟨⟨2026, 1, 2⟩, 11 * 60⟩ monetarySchedule rfl
  exact ⟨h1, h2 emptyStore rfl⟩

-- C7 ----------------------------------------------------------------------

/--
**C7** — get read-path safety: `get` returns `(None, None)` whenever
either file is missing or a read raises (corrupt content) — read-path
corruption is never propagated — and returns the deserialized pair when
both files are readable.
-/
theorem get_read_path_safe (st : Store) (dataset : String) :
    ((st.payloadFile dataset = .missing ∨ st.metaFile dataset = .missing ∨
        st.payloadFile dataset = .corrupt ∨ st.metaFile dataset = .corrupt) →
      getCache st dataset = (none, none)) ∧
    (∀ df m, st.payloadFile dataset = .good df → st.metaFile dataset = .good m →
      getCache st dataset = (some df, some m)) := by
  constructor
  · intro h
    unfold getCache
    rcases hp : st.payloadFile dataset with _ | _ | df <;>
      rcases hm : st.metaFile dataset with _ | _ | m <;>
        simp_all
  · intro df m hp hm
    unfold getCache
    rw [hp, hm]
    simp

/-- Witness for C7: a corrupt payload file is swallowed into `(None, None)`. -/
theorem get_read_path_safe_witness :
    getCache ⟨fun _ => .corrupt, fun _ => .good md0⟩ "monetary" = (none, none) :=
  (get_read_path_safe ⟨fun _ => .corrupt, fun _ => .good md0⟩ "monetary").1
    (Or.inr (Or.inr (Or.inl rfl)))

-- C3 ----------------------------------------------------------------------

/--
**C3 (counterexample)** — put is not atomic when the metadata write fails
after the payload write succeeded: `put` raises the cache-write error, yet
the stored payload has changed from `df0` to `df1` (so the caller-visible
stored pair is NOT unchanged, and the old metadata now sits beside the new
payload).
-/
theorem put_atomicity_counterexample :
    (putCache [] env0 st0 "monetary" df1 .dailyUpdateExpected true false).1 =
      .error (.cacheWriteError "monetary") ∧
    (putCache [] env0 st0 "monetary" df1 .dailyUpdateExpected true false).2.payloadFile
        "monetary" = .good df1 ∧
    st0.payloadFile "monetary" = .good df0 ∧ df1 ≠ df0 :=
  ⟨rfl, rfl, rfl, by decide⟩

/--
**C3 (amended)** — put fault semantics: for a known dataset, `put` either
(a) succeeds, persisting both files and returning the metadata it wrote
with `is_stale = false`; or (b) fails on the payload write, raising and
leaving the store unchanged; or (c) fails on the metadata write, raising
with the metadata file unchanged (stored metadata never references a
payload write that did not happen) — but in case (c) the payload file has
already been rewritten, the spec's acknowledged narrow inconsistency
window.
-/
theorem put_write_fault_semantics (hs : List Date) (env : Env) (st : Store)
    (dataset : String) (df : DataFrame) (r : RefreshReason)
    (pOk mOk : Bool) (s : RefreshSchedule)
    (hsome : lookupSchedule dataset = some s) :
    (pOk = true → mOk = true →
      ∃ md, (putCache hs env st dataset df r pOk mOk).1 = .ok md ∧
        md.is_stale = false ∧
        (putCache hs env st dataset df r pOk mOk).2.payloadFile dataset = .good df ∧
        (putCache hs env st dataset df r pOk mOk).2.metaFile dataset = .good md) ∧
    (pOk = false →
      (putCache hs env st dataset df r pOk mOk).1 = .error (.cacheWriteError dataset) ∧
      (putCache hs env st dataset df r pOk mOk).2 = st) ∧
    (pOk = true → mOk = false →
      (putCache hs env st dataset df r pOk mOk).1 = .error (.cacheWriteError dataset) ∧
      (putCache hs env st dataset df r pOk mOk).2.metaFile = st.metaFile ∧
      (putCache hs env st dataset df r pOk mOk).2.payloadFile dataset = .good df) := by
  obtain ⟨dec, hdec⟩ :=
    @shouldRefresh_ok_of_known env hs dataset (some env.clock) s hsome
  refine ⟨?_, ?_, ?_⟩
  · rintro rfl rfl
    unfold putCache
    rw [hdec]
    dsimp only
    rw [if_pos rfl, if_pos rfl]
    exact ⟨_, rfl, rfl, by simp [updateFile], by simp [updateFile]⟩
  · rintro rfl
    unfold putCache
    rw [hdec]
    dsimp only
    rw [if_neg Bool.false_ne_true]
    exact ⟨rfl, rfl⟩
  · rintro rfl rfl
    unfold putCache
    rw [hdec]
    dsimp only
    rw [if_pos rfl, if_neg Bool.false_ne_true]
    exact ⟨rfl, rfl, by simp [updateFile]⟩

/-- Witness for the amended C3, at the fault-free path on `st0`. -/
theorem put_write_fault_semantics_witness :
    ∃ md, (putCache [] env0 st0 "monetary" df1 .dailyUpdateExpected true true).1 =
        .ok md ∧
      md.is_stale = false ∧
      (putCache [] env0 st0 "monetary" df1 .dailyUpdateExpected true true).2.payloadFile
        "monetary" = .good df1 ∧
      (putCache [] env0 st0 "monetary" df1 .dailyUpdateExpected true true).2.metaFile
        "monetary" = .good md :=
  (put_write_fault_semantics [] env0 st0 "monetary" df1 .dailyUpdateExpected
    true true monetarySchedule rfl).1 rfl rfl

-- C4 ----------------------------------------------------------------------

/--
**C4** — mark_stale frame effect: on a dataset with persisted metadata it
rewrites only `is_stale := true` and `refresh_reason :=
FetchFailedUsingStale`, preserving `last_fetch`, `next_expected`,
`data_date`, `record_count` and all payload files; on a dataset with no
metadata it is a no-op (and, being a total function, cannot raise); and
any subsequent successful `put` returns metadata with `is_stale = false`.
-/
theorem mark_stale_frame (st : Store) (dataset : String) :
    (∀ m, st.metaFile dataset = .good m →
      (markStale st dataset true).metaFile dataset =
        .good { dataset := m.dataset, last_fetch := m.last_fetch,
                next_expected := m.next_expected, data_date := m.data_date,
                refresh_reason := .fetchFailedUsingStale,
                record_count := m.record_count, is_stale := true } ∧
      (markStale st dataset true).payloadFile = st.payloadFile) ∧
    (st.metaFile dataset = .missing → markStale st dataset true = st) ∧
    (∀ hs env st2 df r md st3,
      putCache hs env st2 dataset df r true true = (.ok md, st3) →
      md.is_stale = false) := by
  refine ⟨?_, ?_, ?_⟩
  · intro m hm
    unfold markStale
    rw [hm]
    dsimp only
    rw [if_pos rfl]
    exact ⟨by simp [updateFile], rfl⟩
  · intro hm
    unfold markStale
    rw [hm]
  · intro hs env st2 df r md st3 hput
    unfold putCache at hput
    rcases hh : shouldRefresh env hs dataset (some env.clock) with e | dec
    · rw [hh] at hput
      dsimp only at hput
      exact absurd (congrArg Prod.fst hput) (by simp)
    · rw [hh] at hput
      dsimp only at hput
      rw [if_pos rfl, if_pos rfl] at hput
      have h1 := congrArg Prod.fst hput
      dsimp only at h1
      rw [← Except.ok.inj h1]

/-- Witness for C4 at the concrete store `st0`. -/
theorem mark_stale_frame_witness :
    (markStale st0 "monetary" true).metaFile "monetary" =
      .good ⟨"monetary", ⟨⟨2026, 1, 2⟩, 11 * 60⟩, ⟨⟨2026, 1, 5⟩, 10 * 60⟩, some 100,
        .fetchFailedUsingStale, 1, true⟩ ∧
    (markStale st0 "monetary" true).payloadFile = st0.payloadFile := by
  obtain ⟨h1, h2⟩ := (mark_stale_frame st0 "monetary").1 md0 rfl
  exact ⟨h1, h2⟩

-- C8 ----------------------------------------------------------------------

/--
**C8** — Round-trip: after a successful `put` of payload `df`, `get`
returns that payload (hence an identical row count) and metadata whose
`record_count` equals the payload's row count.
-/
theorem put_get_round_trip (hs : List Date) (env : Env) (st : Store) (dataset : String)
    (df : DataFrame) (r : RefreshReason) (s : RefreshSchedule)
    (hsome : lookupSchedule dataset = some s) :
    ∀ md st2, putCache hs env st dataset df r true true = (.ok md, st2) →
      getCache st2 dataset = (some df, some md) ∧ md.record_count = df.nrows := by
  obtain ⟨dec, hdec⟩ :=
    @shouldRefresh_ok_of_known env hs dataset (some env.clock) s hsome
  intro md st2 hput
  unfold putCache at hput
  rw [hdec] at hput
  dsimp only at hput
  rw [if_pos rfl, if_pos rfl] at hput
  have h1 := congrArg Prod.fst hput
  have h2 := congrArg Prod.snd hput
  dsimp only at h1 h2
  have hmd := Except.ok.inj h1
  constructor
  · rw [← h2]
    unfold getCache
    simp [updateFile, hmd]
  · rw [← hmd]

/-- Witness for C8 on the concrete store `st0`. -/
theorem put_get_round_trip_witness :
    ∃ md st2, putCache [] env0 st0 "monetary" df1 .dailyUpdateExpected true true =
        (.ok md, st2) ∧
      getCache st2 "monetary" = (some df1, some md) ∧ md.record_count = df1.nrows := by
  have hexists : ∃ md st2,
      putCache [] env0 st0 "monetary" df1 .dailyUpdateExpected true true =
        (.ok md, st2) := ⟨_, _, rfl⟩
  obtain ⟨md, st2, heq⟩ := hexists
  obtain ⟨h1, h2⟩ := put_get_round_trip [] env0 st0 "monetary" df1
    .dailyUpdateExpected monetarySchedule rfl md st2 heq
  exact ⟨md, st2, heq, h1, h2⟩

-- C9 ----------------------------------------------------------------------

/--
**C9 (counterexample)** — the Cache Store's `get` does NOT fail fast on an
unknown dataset: for the identifier "bogus" (not in the schedule table) it
returns the runtime cache-miss pair `(None, None)` instead of raising an
invalid-argument error (the scheduler, by contrast, does raise).
-/
theorem unknown_dataset_counterexample :
    getCache emptyStore "bogus" = (none, none) ∧
    shouldRefreshAt env0 [] "bogus" none env0.clock = .error .unknownDataset :=
  ⟨rfl, rfl⟩

/--
**C9 (amended)** — for every identifier not in the schedule table, the
Scheduler's decide (both entry points) fails fast with the
invalid-argument error, and the Cache Store operations that consult the
scheduler (`put`, `needs_refresh`) propagate that error without touching
the store; but `get` performs no dataset validation and treats an unknown
dataset as an ordinary cache miss, returning `(None, None)`.
-/
theorem unknown_dataset_fail_fast (env : Env) (hs : List Date) (dataset : String)
    (h : lookupSchedule dataset = none) :
    (∀ lf t, shouldRefreshAt env hs dataset lf t = .error .unknownDataset) ∧
    (∀ lf, shouldRefresh env hs dataset lf = .error .unknownDataset) ∧
    (∀ st df r pOk mOk,
      (putCache hs env st dataset df r pOk mOk).1 =
        .error (.schedulerError .unknownDataset) ∧
      (putCache hs env st dataset df r pOk mOk).2 = st) ∧
    (∀ st, needsRefresh hs env st dataset = .error .unknownDataset) ∧
    (∀ st, st.payloadFile dataset = .missing → getCache st dataset = (none, none)) := by
  have hat : ∀ lf t, shouldRefreshAt env hs dataset lf t = .error .unknownDataset := by
    intro lf t
    unfold shouldRefreshAt
    rw [h]
  have hcl : ∀ lf, shouldRefresh env hs dataset lf = .error .unknownDataset := by
    intro lf
    unfold shouldRefresh
    rw [h]
  refine ⟨hat, hcl, ?_, ?_, ?_⟩
  · intro st df r pOk mOk
    unfold putCache
    rw [hcl (some env.clock)]
    exact ⟨rfl, rfl⟩
  · intro st
    unfold needsRefresh
    cases hm : getMetadataM st dataset with
    | none => exact hcl none
    | some m => exact hcl (some m.last_fetch)
  · intro st hp
    unfold getCache
    rw [hp]
    simp

/-- Witness for the amended C9 at the identifier "bogus". -/
theorem unknown_dataset_fail_fast_witness :
    shouldRefresh env0 [] "bogus" none = .error .unknownDataset ∧
    needsRefresh [] env0 emptyStore "bogus" = .error .unknownDataset ∧
    getCache emptyStore "bogus" = (none, none) := by
  obtain ⟨hat, hcl, hput, hneeds, hget⟩ := unknown_dataset_fail_fast env0 [] "bogus" rfl
  exact ⟨hcl none, hneeds emptyStore, hget emptyStore rfl⟩

-- C10 ---------------------------------------------------------------------

/-- The general business-day search returning the combined datetime, as
`_next_business_day` does (`datetime.combine(check_date, at_time)`), over
an arbitrary holiday predicate and explicit fuel. -/
def nextBusinessDayGen (hol : Date → Bool) (fuel : Nat) (from_date : Date)
    (at_time : Nat) : Option DateTime :=
  (nbAux hol fuel from_date).map (fun r => ⟨r, at_time⟩)

/-- A pathological holiday calendar: every weekday is a holiday.  Its runs
of consecutive holiday days have length at most 5 (weekends interrupt
them), yet every single day is weekend-or-holiday. -/
def allWeekdaysHoliday : Date → Bool :=
  fun d => decide (weekday d < 5)

/-- Under `allWeekdaysHoliday`, every date satisfies the loop's
continuation condition. -/
theorem allWeekdaysHoliday_loops (d : Date) :
    5 ≤ weekday d ∨ allWeekdaysHoliday d = true := by
  by_cases h : weekday d < 5
  · exact Or.inr (by simp [allWeekdaysHoliday, h])
  · exact Or.inl (by omega)

/--
**C10 (counterexample)** — the claim's precondition ("no unbounded run of
consecutive holiday days") does not ensure termination: with every weekday
a holiday, each valid date has a non-holiday day within 6 days (runs of
consecutive holidays are bounded by 5), yet the day-advancing loop of
`_next_business_day` never returns, for any amount of fuel, from
2026-01-05.
-/
theorem next_business_day_terminates_counterexample :
    (∀ fuel, nbAux allWeekdaysHoliday fuel ⟨2026, 1, 5⟩ = none) ∧
    (∀ d : Date, d.Valid →
      ∃ k, k ≤ 6 ∧ allWeekdaysHoliday (succDate^[k] d) = false) := by
  constructor
  · have key : ∀ fuel (d : Date), nbAux allWeekdaysHoliday fuel d = none := by
      intro fuel
      induction fuel with
      | zero =>
        intro d
        unfold nbAux
        rw [if_pos (allWeekdaysHoliday_loops d)]
      | succ f ih =>
        intro d
        unfold nbAux
        rw [if_pos (allWeekdaysHoliday_loops d)]
        exact ih (succDate d)
    exact fun fuel => key fuel ⟨2026, 1, 5⟩
  · intro d hv
    set t := toOrdinal d with ht
    have ht1 : 1 ≤ t := toOrdinal_pos hv
    -- advance to the next Saturday: ordinal ≡ 6 (mod 7)
    set o := t + (13 - t % 7) % 7 with ho
    have ho7 : o % 7 = 6 := by omega
    set k := o - t with hk
    obtain ⟨hvi, hoi⟩ := succDate_iter_spec hv k
    refine ⟨k, by omega, ?_⟩
    have hwd : weekday (succDate^[k] d) = 5 := by
      unfold weekday
      omega
    simp [allWeekdaysHoliday, hwd]

/--
**C10 (amended)** — termination of the day-advancing loop under the
strengthened precondition that some business day (neither weekend nor
holiday) is reachable from the start: with enough fuel the loop returns
the first business day at or after the start, combined with the given
time-of-day.
-/
theorem next_business_day_terminates (hol : Date → Bool) (d : Date) (at_time : Nat)
    (h : ∃ k, BusinessDay hol (succDate^[k] d)) :
    ∃ fuel k, nextBusinessDayGen hol fuel d at_time = some ⟨succDate^[k] d, at_time⟩ ∧
      BusinessDay hol (succDate^[k] d) ∧
      ∀ j < k, ¬BusinessDay hol (succDate^[j] d) := by
  obtain ⟨k0, hb⟩ := h
  obtain ⟨k, hres, hbus, hleast⟩ := nbAux_spec hol k0 d ⟨k0, le_refl _, hb⟩
  exact ⟨k0, k, by simp [nextBusinessDayGen, hres], hbus, hleast⟩

/-- Witness for the amended C10: the empty calendar, starting on Monday
2026-01-05, which is itself a business day. -/
theorem next_business_day_terminates_witness :
    ∃ fuel k, nextBusinessDayGen (fun _ => false) fuel ⟨2026, 1, 5⟩ 600 =
        some ⟨succDate^[k] ⟨2026, 1, 5⟩, 600⟩ ∧
      BusinessDay (fun _ => false) (succDate^[k] ⟨2026, 1, 5⟩) ∧
      ∀ j < k, ¬BusinessDay (fun _ => false) (succDate^[j] ⟨2026, 1, 5⟩) :=
  next_business_day_terminates (fun _ => false) ⟨2026, 1, 5⟩ 600 ⟨0, by decide⟩
